import Mathlib

/-!
Verification development for the swapbytes peer-to-peer file-trading chat
application (Rust sources: src/events.rs, src/input.rs, src/files.rs,
src/utils.rs, src/main.rs).

Shallow embedding conventions:
* Rust `HashMap<String, V>` state is embedded as an association list
  `List (String × V)` with overwrite-on-insert semantics (`ainsert`),
  `Option`-returning lookup (`alookup`) and key removal (`aerase`),
  matching `HashMap::insert` / `get` / `remove`.
* Rust `HashSet<QueryId>` (`ChatState.pending_keys`) is a `List Nat`
  with set semantics: `sinsert` is a no-op on a present element and
  `sremove` returns the `bool` that `HashSet::remove` returns.
* libp2p `PeerId` values are embedded as `String`: the source only ever
  round-trips them through `to_string` / `from_str`, so parsing is the
  identity in the model.
* Side effects (network sends, kademlia put/get, filesystem writes,
  console output) are embedded as an emitted `List Effect`; each handler
  is a pure function from its inputs and the mutable state to the new
  state plus the effect list, in source order.
* CBOR (de)serialization by the external `serde_cbor` crate is embedded
  at the boundary: handlers receive the decode result (`Option _`) of a
  record value, and emitted records carry the structured value.
* The SHA-256 digest itself is computed by the external `sha2` crate
  (out of scope per the spec); `compute_hash` takes the digest function
  as a parameter and embeds exactly the repository's own processing of
  the digest (hex encoding and truncation).
-/

/-- Association-list lookup, embedding `HashMap::get` -/
def alookup {α : Type} (l : List (String × α)) (k : String) : Option α :=
  match l with
  | [] => none
  | kv :: rest => if kv.1 = k then some kv.2 else alookup rest k

/-- Association-list insert with overwrite, embedding `HashMap::insert` -/
def ainsert {α : Type} (l : List (String × α)) (k : String) (v : α) :
    List (String × α) :=
  (k, v) :: l.filter (fun kv => kv.1 ≠ k)

/-- Association-list key removal, embedding `HashMap::remove` -/
def aerase {α : Type} (l : List (String × α)) (k : String) :
    List (String × α) :=
  l.filter (fun kv => kv.1 ≠ k)

/-- Set insert, embedding `HashSet::insert` (no duplicates) -/
def sinsert (s : List Nat) (x : Nat) : List Nat :=
  if x ∈ s then s else x :: s

/-- Set removal, embedding `HashSet::remove`: returns whether the element
was present, together with the set without it -/
def sremove (s : List Nat) (x : Nat) : Bool × List Nat :=
  (decide (x ∈ s), s.filter (fun y => y ≠ x))

/-- files.rs: `DirectMessage` -/
structure DirectMessage where
  sender_nickname : String
  message : String
deriving DecidableEq, Repr

/-- files.rs: `FileMetadata` -/
structure FileMetadata where
  filename : String
  owner : String
  description : Option String
  hash : String
  size : Nat
deriving DecidableEq, Repr

/-- files.rs: `FileResponse` -/
structure FileResponse where
  file : List Nat
  metadata : FileMetadata
deriving DecidableEq, Repr

/-- utils.rs: `PeerInfo` -/
structure PeerInfo where
  peerid : String
  nickname : String
deriving DecidableEq, Repr

/-- Modelled from the spec: the `TradeRequest` struct ("TradeProposal-on-wire
{ requested_file_hash: string, offered_file: FileRecord, nickname: string }",
spec section 6). The definition itself is not under src/ (input.rs and
events.rs import it from the final variant of utils.rs); field names and
types follow its uses at input.rs lines 313-317 and events.rs lines 391-407. -/
structure TradeRequest where
  offered_file : FileMetadata
  requested_file : String
  nickname : String
deriving DecidableEq, Repr

/-- input.rs: `ChatMessage` -/
structure ChatMessage where
  message : String
  nickname : String
deriving DecidableEq, Repr

/-- files.rs: `LocalFileStore` -/
structure LocalFileStore where
  metadata : List (String × FileMetadata)
  files : List (String × List Nat)
deriving DecidableEq, Repr

/-- files.rs: `LocalFileStore::get_metadata` -/
def LocalFileStore.get_metadata (fs : LocalFileStore) (hash : String) :
    Option FileMetadata :=
  alookup fs.metadata hash

/-- files.rs: `LocalFileStore::all_hashes` (keys of the `files` map) -/
def LocalFileStore.all_hashes (fs : LocalFileStore) : List String :=
  fs.files.map (fun kv => kv.1)

/-- files.rs: `LocalFileStore::get_file` -/
def LocalFileStore.get_file (fs : LocalFileStore) (hash : String) :
    Option (List Nat) :=
  alookup fs.files hash

/-- files.rs: `LocalFileStore::contains_file` -/
def LocalFileStore.contains_file (fs : LocalFileStore) (hash : String) : Bool :=
  (alookup fs.files hash).isSome

/-- Lower-case hex digit for a value below 16 (`hex::encode` alphabet) -/
def hexDigit (n : Nat) : Char :=
  if n < 10 then Char.ofNat (48 + n) else Char.ofNat (87 + n)

/-- Hex encoding of a byte list, embedding the external `hex::encode` -/
def hexEncode (bytes : List Nat) : String :=
  String.mk ((bytes.map (fun b => [hexDigit (b / 16), hexDigit (b % 16)])).flatten)

/-- files.rs: `compute_hash`. The SHA-256 digest is produced by the external
`sha2` crate and is therefore a parameter `sha` (a function from the data
bytes to the 32 digest bytes); the repository's own code hex-encodes the
digest and truncates the hex string to its first 8 characters (`[..8]`). -/
def compute_hash (sha : List Nat → List Nat) (data : List Nat) : String :=
  (hexEncode (sha data)).take 8

/-- files.rs: `LocalFileStore::add_file`: computes the (truncated) content
hash, builds the metadata record, and inserts bytes and metadata under that
hash; returns the hash and the updated store. -/
def LocalFileStore.add_file (fs : LocalFileStore)
    (sha : List Nat → List Nat) (file_bytes : List Nat) (filename : String)
    (peer_id : String) (description : Option String) :
    String × LocalFileStore :=
  let hash := compute_hash sha file_bytes
  let metadata : FileMetadata :=
    { filename := filename
      owner := peer_id
      description := description
      hash := hash
      size := file_bytes.length }
  (hash,
   { metadata := ainsert fs.metadata hash metadata
     files := ainsert fs.files hash file_bytes })

/-- Modelled from the spec: the bidirectional nickname directory (spec
section 4.2, "Identity Directory"). The final-variant `ChatState.nicknames`
structure used by input.rs and events.rs is not under src/; per the spec,
`set` "overwrites both directions", `resolve_nickname` falls back to the
queried identity, and `resolve_identity` reports absence. Method names
follow the call sites: `get` (events.rs line 199, 281, 429, 499; input.rs
line 436), `get_key_from_value` (input.rs lines 225, 272, 346, 396) and
`insert` (events.rs lines 217-219, 361, 373). -/
structure BiMap where
  fwd : List (String × String)
  bwd : List (String × String)
deriving DecidableEq, Repr

/-- Modelled from the spec: `resolve_nickname(identity) -> nickname or
identity` (fallback never fails). -/
def BiMap.get (m : BiMap) (k : String) : String :=
  (alookup m.fwd k).getD k

/-- Modelled from the spec: `resolve_identity(nickname) -> identity or
absent`. -/
def BiMap.get_key_from_value (m : BiMap) (v : String) : Option String :=
  alookup m.bwd v

/-- Modelled from the spec: `set(identity, nickname)` overwrites both
directions. -/
def BiMap.insert (m : BiMap) (k v : String) : BiMap :=
  { fwd := ainsert m.fwd k v
    bwd := ainsert m.bwd v k }

/-- Modelled from the spec: the fields of the final-variant `ChatState`
(utils.rs under src/ holds an earlier variant without them). Field names
and types follow every use in input.rs and events.rs:
`nicknames` (Identity Directory), `incoming_trades` / `outgoing_trades`
(Trade Ledger slots keyed by counterpart peer-id string, spec section 4.3),
`pending_keys` (dedup tracker of kademlia `QueryId`s, spec section 4.4),
and `nickname` (own display nickname). -/
structure ChatState where
  nicknames : BiMap
  incoming_trades : List (String × TradeRequest)
  outgoing_trades : List (String × TradeRequest)
  pending_keys : List Nat
  nickname : String
deriving DecidableEq, Repr

/-- utils.rs: the `ChatState` variant defined under src/ (used by
`add_peer_to_store`): explicit `peer_to_nickname` and `nickname_to_peer`
hash maps. -/
structure UtilsChatState where
  peer_to_nickname : List (String × String)
  nickname_to_peer : List (String × String)
deriving DecidableEq, Repr

/-- Structured value of an emitted kademlia record (the CBOR serialization
by the external serde_cbor crate is left at the boundary). -/
inductive KadValue where
  | fileMeta (m : FileMetadata)
  | fileIndex (hashes : List String)
  | peerInfo (p : PeerInfo)
deriving DecidableEq, Repr

/-- Console output lines, one constructor per `println!` / `eprintln!`
relevant to the embedded handlers, carrying the dynamic data that the
source interpolates into the format string. -/
inductive ConsoleMsg where
  | usageBad (cmd : String)
  | errParseNickname
  | errNicknameNotFound
  | errParsePeerId
  | errNoTradeFromUser
  | errRequestedFileMissing
  | errRequestedMetadataMissing
  | errOfferedFileMissing
  | errAlreadyNegotiatingIncoming (nickname : String)
  | errAlreadyNegotiatingOutgoing (nickname : String)
  | errDmRequiresOpenTrade
  | errParseMessage
  | tradeRequestSent (nickname : String)
  | tradeDeclined
  | tradePrompt (requesterNickname : String)
      (requestedMeta : Option FileMetadata) (offered : FileMetadata)
  | peerLacksFile (nickname : String)
  | tradeSuccessful
  | tradeDeclinedBy (nickname : String)
  | transferFailed
  | fileSummary (m : FileMetadata)
  | errDeserializeMetadata
  | fileIndexSummary (nickname : String) (count : Nat)
  | errParseFileIndex (key : String)
  | uploadedFile (filename : String) (hash : String)
deriving DecidableEq, Repr

/-- Side effects emitted by the embedded handlers, in source order. -/
inductive Effect where
  | console (msg : ConsoleMsg)
  | publishChat (msg : ChatMessage)
  | kadPutRecord (key : String) (value : KadValue)
  | kadGetRecord (key : String) (queryId : Nat)
  | sendDirectMessage (peer : String) (dm : DirectMessage)
  | sendTradeRequest (peer : String) (req : TradeRequest)
  | sendFileTransfer (peer : String) (payload : Option FileResponse)
  | respondFileTransfer (payload : Option FileResponse)
  | respondTradeAck (ack : Bool)
  | saveFile (bytes : List Nat) (filename : String)
deriving DecidableEq, Repr

/-- utils.rs lines 44-85: `add_peer_to_store`: publishes the PeerInfo to
the DHT under both `peer::<peerid>` and `peer::<nickname>` keys, then
inserts both directions of the peerid/nickname mapping into the state. -/
def add_peer_to_store (peerid : String) (nickname : String)
    (chat_state : UtilsChatState) : UtilsChatState × List Effect :=
  let peer_info : PeerInfo := { peerid := peerid, nickname := nickname }
  ({ peer_to_nickname := ainsert chat_state.peer_to_nickname peerid nickname
     nickname_to_peer := ainsert chat_state.nickname_to_peer nickname peerid },
   [Effect.kadPutRecord ("peer::" ++ peerid) (KadValue.peerInfo peer_info),
    Effect.kadPutRecord ("peer::" ++ nickname) (KadValue.peerInfo peer_info)])

/-- Modelled from the spec: `resolve_nickname(identity)` over the utils.rs
state variant — "lookups that miss fall back to returning the query key
itself" (spec sections 3 and 4.2). -/
def UtilsChatState.resolve_nickname (st : UtilsChatState)
    (identity : String) : String :=
  (alookup st.peer_to_nickname identity).getD identity

/-- Modelled from the spec: `resolve_identity(nickname)` over the utils.rs
state variant — this direction reports absence (spec section 4.2). -/
def UtilsChatState.resolve_identity (st : UtilsChatState)
    (nickname : String) : Option String :=
  alookup st.nickname_to_peer nickname

/-- input.rs lines 262-333: the `/trade` command branch of
`handle_input_line`. `args` is the output of `split_string` (so `args[0]`
is the command word). Checks, in source order: argument count, nickname
resolution, no incoming trade with the peer, no outgoing trade with the
peer, offered file present locally; then stores the outgoing
`TradeRequest` and sends it. -/
def trade_cmd (args : List String) (chat_state : ChatState)
    (file_store : LocalFileStore) : ChatState × List Effect :=
  if args.length ≠ 4 then
    (chat_state, [Effect.console (ConsoleMsg.usageBad "trade")])
  else
    match args.get? 1 with
    | none => (chat_state, [Effect.console ConsoleMsg.errParseNickname])
    | some nickname =>
      match chat_state.nicknames.get_key_from_value nickname with
      | none => (chat_state, [Effect.console ConsoleMsg.errNicknameNotFound])
      | some peer_id_str =>
        if (alookup chat_state.incoming_trades peer_id_str).isSome then
          (chat_state,
           [Effect.console (ConsoleMsg.errAlreadyNegotiatingIncoming nickname)])
        else if (alookup chat_state.outgoing_trades peer_id_str).isSome then
          (chat_state,
           [Effect.console (ConsoleMsg.errAlreadyNegotiatingOutgoing nickname)])
        else
          match args.get? 2 with
          | none => (chat_state, [Effect.console ConsoleMsg.errParseMessage])
          | some offered_hash =>
            match file_store.get_metadata offered_hash with
            | none =>
              (chat_state, [Effect.console ConsoleMsg.errOfferedFileMissing])
            | some offered_file =>
              match args.get? 3 with
              | none =>
                (chat_state, [Effect.console ConsoleMsg.errParseMessage])
              | some requested_hash =>
                let trade : TradeRequest :=
                  { offered_file := offered_file
                    requested_file := requested_hash
                    nickname := chat_state.nickname }
                ({ chat_state with
                     outgoing_trades :=
                       ainsert chat_state.outgoing_trades peer_id_str trade },
                 [Effect.sendTradeRequest peer_id_str trade,
                  Effect.console (ConsoleMsg.tradeRequestSent nickname)])

/-- input.rs lines 335-383: the `/trade_accept` command branch of
`handle_input_line`. Looks the incoming trade up with `get` (not
`remove`), assembles the `FileResponse` from the requested file's bytes
and metadata, and sends it as a file-transfer request. Neither the chat
state nor the file store is mutated on any path of this branch. -/
def trade_accept_cmd (args : List String) (chat_state : ChatState)
    (file_store : LocalFileStore) : ChatState × List Effect :=
  if args.length ≠ 2 then
    (chat_state, [Effect.console (ConsoleMsg.usageBad "trade_accept")])
  else
    match args.get? 1 with
    | none => (chat_state, [Effect.console ConsoleMsg.errParseNickname])
    | some nickname =>
      match chat_state.nicknames.get_key_from_value nickname with
      | none => (chat_state, [Effect.console ConsoleMsg.errNicknameNotFound])
      | some peer_id_str =>
        match alookup chat_state.incoming_trades peer_id_str with
        | none => (chat_state, [Effect.console ConsoleMsg.errNoTradeFromUser])
        | some trade_request =>
          match file_store.get_file trade_request.requested_file with
          | none =>
            (chat_state, [Effect.console ConsoleMsg.errRequestedFileMissing])
          | some requested_file =>
            match file_store.get_metadata trade_request.requested_file with
            | none =>
              (chat_state,
               [Effect.console ConsoleMsg.errRequestedMetadataMissing])
            | some metadata =>
              let response : FileResponse :=
                { file := requested_file, metadata := metadata }
              (chat_state,
               [Effect.sendFileTransfer peer_id_str (some response)])

/-- input.rs lines 385-425: the `/trade_decline` command branch of
`handle_input_line`: removes the incoming trade and sends the empty
(`None`) file-transfer request as the decline signal. -/
def trade_decline_cmd (args : List String) (chat_state : ChatState) :
    ChatState × List Effect :=
  if args.length ≠ 2 then
    (chat_state, [Effect.console (ConsoleMsg.usageBad "trade_decline")])
  else
    match args.get? 1 with
    | none => (chat_state, [Effect.console ConsoleMsg.errParseNickname])
    | some nickname =>
      match chat_state.nicknames.get_key_from_value nickname with
      | none => (chat_state, [Effect.console ConsoleMsg.errNicknameNotFound])
      | some peer_id_str =>
        match alookup chat_state.incoming_trades peer_id_str with
        | none => (chat_state, [Effect.console ConsoleMsg.errNoTradeFromUser])
        | some _ =>
          ({ chat_state with
               incoming_trades := aerase chat_state.incoming_trades peer_id_str },
           [Effect.sendFileTransfer peer_id_str none,
            Effect.console ConsoleMsg.tradeDeclined])

/-- input.rs lines 215-260: the `/dm` command branch of
`handle_input_line`. Requires the nickname to resolve and an open trade
(incoming or outgoing) with the resolved peer before sending the
direct-message request. -/
def dm_cmd (args : List String) (chat_state : ChatState) :
    ChatState × List Effect :=
  if args.length ≠ 3 then
    (chat_state, [Effect.console (ConsoleMsg.usageBad "dm")])
  else
    match args.get? 1 with
    | none => (chat_state, [Effect.console ConsoleMsg.errParseNickname])
    | some nickname =>
      match chat_state.nicknames.get_key_from_value nickname with
      | none => (chat_state, [Effect.console ConsoleMsg.errNicknameNotFound])
      | some peer_id_str =>
        if (alookup chat_state.incoming_trades peer_id_str).isNone ∧
           (alookup chat_state.outgoing_trades peer_id_str).isNone then
          (chat_state, [Effect.console ConsoleMsg.errDmRequiresOpenTrade])
        else
          match args.get? 2 with
          | none => (chat_state, [Effect.console ConsoleMsg.errParseMessage])
          | some message =>
            (chat_state,
             [Effect.sendDirectMessage peer_id_str
                { message := message
                  sender_nickname := chat_state.nickname }])

/-- input.rs lines 154-202: the sharing part of the `/upload` command
branch, after the file bytes have been read from the local filesystem
(the read itself is an external I/O boundary). Adds the file to the
local store, publishes its metadata under `file::<hash>` and the full
hash set under `file_index::<peer_id>`. -/
def upload_share (file_bytes : List Nat) (filename : String)
    (peer_id : String) (description : Option String)
    (file_store : LocalFileStore) (sha : List Nat → List Nat) :
    LocalFileStore × List Effect :=
  let (hash, fs1) := file_store.add_file sha file_bytes filename peer_id
    description
  let metaEffects :=
    match fs1.get_metadata hash with
    | some metadata =>
      [Effect.kadPutRecord ("file::" ++ hash) (KadValue.fileMeta metadata),
       Effect.console (ConsoleMsg.uploadedFile filename hash)]
    | none => []
  (fs1,
   metaEffects ++
   [Effect.kadPutRecord ("file_index::" ++ peer_id)
      (KadValue.fileIndex fs1.all_hashes)])

/-- events.rs lines 386-417: the `Message::Request` branch of
`handle_trade_request_event`. Checks the local Content Store for the
requested hash; if present, records the incoming `TradeRequest` and
prints the confirmation prompt (the source `unwrap`s the metadata, which
the prompt constructor carries as the looked-up `Option`); always
responds with `AcknowledgeResponse(requested_file_exists)`. -/
def handle_trade_request (peer_id : String) (request : TradeRequest)
    (chat_state : ChatState) (file_store : LocalFileStore) :
    ChatState × List Effect :=
  let requested_file_exists := file_store.contains_file request.requested_file
  if requested_file_exists then
    ({ chat_state with
         incoming_trades := ainsert chat_state.incoming_trades peer_id request },
     [Effect.console
        (ConsoleMsg.tradePrompt request.nickname
          (file_store.get_metadata request.requested_file)
          request.offered_file),
      Effect.respondTradeAck requested_file_exists])
  else
    (chat_state, [Effect.respondTradeAck requested_file_exists])

/-- events.rs lines 420-434: the `Message::Response` branch of
`handle_trade_request_event`. `AcknowledgeResponse(true)`: no change.
`AcknowledgeResponse(false)`: remove the outgoing trade (the spec's
`complete_or_abort_outgoing`) and report that the peer lacks the file. -/
def handle_trade_ack (peer_id : String) (response : Bool)
    (chat_state : ChatState) : ChatState × List Effect :=
  if response then
    (chat_state, [])
  else
    ({ chat_state with
         outgoing_trades := aerase chat_state.outgoing_trades peer_id },
     [Effect.console
        (ConsoleMsg.peerLacksFile (chat_state.nicknames.get peer_id))])

/-- events.rs lines 446-503: the `Message::Request` branch of
`handle_file_transfer_event`. With a `Some` payload: fetch-and-remove the
matching outgoing trade (absent: respond `None` and stop — `HashMap::remove`
of an absent key leaves the map unchanged); otherwise save the received
file, respond with the offered file's bytes (`get_file(..).unwrap_or_default()`,
so an absent file yields the empty byte vector) plus its metadata, and
print the success line. With a `None` payload (decline signal): remove the
outgoing trade and report the decline. -/
def handle_file_transfer_request (peer_id : String)
    (request : Option FileResponse) (chat_state : ChatState)
    (file_store : LocalFileStore) : ChatState × List Effect :=
  match request with
  | some file_response =>
    match alookup chat_state.outgoing_trades peer_id with
    | none => (chat_state, [Effect.respondFileTransfer none])
    | some trade_details =>
      let st1 :=
        { chat_state with
            outgoing_trades := aerase chat_state.outgoing_trades peer_id }
      let file_bytes :=
        (file_store.get_file trade_details.offered_file.hash).getD []
      let response : FileResponse :=
        { file := file_bytes, metadata := trade_details.offered_file }
      (st1,
       [Effect.saveFile file_response.file file_response.metadata.filename,
        Effect.respondFileTransfer (some response),
        Effect.console ConsoleMsg.tradeSuccessful])
  | none =>
    ({ chat_state with
         outgoing_trades := aerase chat_state.outgoing_trades peer_id },
     [Effect.console
        (ConsoleMsg.tradeDeclinedBy (chat_state.nicknames.get peer_id))])

/-- events.rs lines 506-525: the `Message::Response` branch of
`handle_file_transfer_event`. A `Some` payload completes the trade:
remove the incoming trade, save the received file, report success. A
`None` payload reports a failed transfer. -/
def handle_file_transfer_rsp (peer_id : String)
    (response : Option FileResponse) (chat_state : ChatState) :
    ChatState × List Effect :=
  match response with
  | some file =>
    ({ chat_state with
         incoming_trades := aerase chat_state.incoming_trades peer_id },
     [Effect.saveFile file.file file.metadata.filename,
      Effect.console ConsoleMsg.tradeSuccessful])
  | none => (chat_state, [Effect.console ConsoleMsg.transferFailed])

/-- events.rs lines 243-264: the `file::` branch of `handle_kad_event`
for a found record. Consults the dedup tracker first (`pending_keys.remove`)
and discards the answer when the query id is not tracked; otherwise prints
the one-line file summary (or a deserialization error). `decoded` is the
serde_cbor decode result of the record value. -/
def kad_file_branch (id : Nat) (decoded : Option FileMetadata)
    (chat_state : ChatState) : ChatState × List Effect :=
  let (hit, pk) := sremove chat_state.pending_keys id
  let st1 := { chat_state with pending_keys := pk }
  if ¬hit then
    (st1, [])
  else
    match decoded with
    | some metadata => (st1, [Effect.console (ConsoleMsg.fileSummary metadata)])
    | none => (st1, [Effect.console ConsoleMsg.errDeserializeMetadata])

/-- The per-hash fan-out loop of the `file_index::` branch (events.rs
lines 287-291): for each hash issue a `file::<hash>` lookup whose fresh
`QueryId` is the next counter value, and insert that id into
`pending_keys`. Returns the updated dedup set, the next fresh id and the
issued lookups in order. -/
def issue_file_lookups (hashes : List String) (pending : List Nat)
    (qid : Nat) : List Nat × Nat × List Effect :=
  match hashes with
  | [] => (pending, qid, [])
  | h :: rest =>
    let step := issue_file_lookups rest (sinsert pending qid) (qid + 1)
    (step.1, step.2.1, Effect.kadGetRecord ("file::" ++ h) qid :: step.2.2)

/-- events.rs lines 267-297: the `file_index::` branch of
`handle_kad_event` for a found record. Discards when the record has no
peer or the query id is not tracked (short-circuit: the tracker is only
consulted when the peer is present); otherwise prints the summary line
with the resolved nickname and the file count, then issues a `file::`
metadata lookup per listed hash, tracking each fresh query id. `key` is
the record key string, `rpeer` the record's peer, `decoded` the
serde_cbor decode result of the record value, `qid` the next fresh
`QueryId` of the kademlia behaviour. -/
def kad_file_index_branch (id : Nat) (key : String) (rpeer : Option String)
    (decoded : Option (List String)) (chat_state : ChatState) (qid : Nat) :
    ChatState × Nat × List Effect :=
  match rpeer with
  | none => (chat_state, qid, [])
  | some rp =>
    let (hit, pk) := sremove chat_state.pending_keys id
    let st1 := { chat_state with pending_keys := pk }
    if ¬hit then
      (st1, qid, [])
    else
      match decoded with
      | none => (st1, qid, [Effect.console (ConsoleMsg.errParseFileIndex key)])
      | some hashes =>
        let file_count := hashes.length
        let peerid_str := rp
        let summary :=
          Effect.console
            (ConsoleMsg.fileIndexSummary (st1.nicknames.get peerid_str)
              file_count)
        let fanout := issue_file_lookups hashes st1.pending_keys qid
        ({ st1 with pending_keys := fanout.1 }, fanout.2.1,
         summary :: fanout.2.2)

/-- input.rs lines 205-213: the `/list_files` command branch of
`handle_input_line`: one `file_index::<peer>` lookup per connected peer,
each fresh query id tracked for dedup. -/
def list_files_cmd (peers : List String) (chat_state : ChatState)
    (qid : Nat) : ChatState × Nat × List Effect :=
  match peers with
  | [] => (chat_state, qid, [])
  | p :: rest =>
    let st1 :=
      { chat_state with pending_keys := sinsert chat_state.pending_keys qid }
    let step := list_files_cmd rest st1 (qid + 1)
    (step.1, step.2.1,
     Effect.kadGetRecord ("file_index::" ++ p) qid :: step.2.2)

/-- Concrete metadata of the counterpart's offered file (witness data). -/
def wmetaA : FileMetadata :=
  { filename := "a.txt", owner := "p2", description := none
    hash := "11112222", size := 3 }

/-- Concrete metadata of the locally owned file (witness data). -/
def wmetaB : FileMetadata :=
  { filename := "b.txt", owner := "p1", description := some "notes"
    hash := "33334444", size := 2 }

/-- Concrete incoming trade proposal from peer p1 (witness data). -/
def wtradeIn : TradeRequest :=
  { offered_file := wmetaA, requested_file := "33334444", nickname := "bob" }

/-- Concrete outgoing trade proposal towards peer p1 (witness data). -/
def wtradeOut : TradeRequest :=
  { offered_file := wmetaB, requested_file := "11112222", nickname := "alice" }

/-- Concrete nickname directory mapping p1 to bob (witness data). -/
def wmap : BiMap :=
  { fwd := [("p1", "bob")], bwd := [("bob", "p1")] }

/-- Concrete local file store owning the file with hash 33334444
(witness data). -/
def wfs : LocalFileStore :=
  { metadata := [("33334444", wmetaB)], files := [("33334444", [9, 8])] }

/-- Concrete chat state with no open trades (witness data). -/
def wstClean : ChatState :=
  { nicknames := wmap, incoming_trades := [], outgoing_trades := []
    pending_keys := [], nickname := "alice" }

/-- Concrete chat state with an incoming trade from p1 (witness data). -/
def wstIn : ChatState :=
  { nicknames := wmap, incoming_trades := [("p1", wtradeIn)]
    outgoing_trades := [], pending_keys := [], nickname := "alice" }

/-- Concrete chat state with an outgoing trade towards p1 (witness data). -/
def wstOut : ChatState :=
  { nicknames := wmap, incoming_trades := []
    outgoing_trades := [("p1", wtradeOut)], pending_keys := []
    nickname := "alice" }

/-- Concrete file-transfer payload from the counterpart (witness data). -/
def wfr : FileResponse :=
  { file := [7, 7], metadata := wmetaA }

/-- Concrete chat state with query id 5 tracked for dedup (witness data). -/
def wstPend : ChatState :=
  { nicknames := wmap, incoming_trades := [], outgoing_trades := []
    pending_keys := [5], nickname := "alice" }

/-- Concrete chat state with an empty nickname directory (witness data). -/
def wstNoNick : ChatState :=
  { nicknames := { fwd := [], bwd := [] }, incoming_trades := []
    outgoing_trades := [], pending_keys := [], nickname := "alice" }

theorem alookup_ainsert_self {α : Type} (l : List (String × α)) (k : String)
    (v : α) : alookup (ainsert l k v) k = some v := by
  simp [alookup, ainsert]

theorem alookup_aerase_ne {α : Type} (l : List (String × α)) (k k' : String)
    (h : k' ≠ k) : alookup (aerase l k) k' = alookup l k' := by
  induction l with
  | nil => rfl
  | cons kv rest ih =>
    by_cases hk : kv.1 = k
    · have hdrop : aerase (kv :: rest) k = aerase rest k := by
        simp [aerase, hk]
      have hne : ¬kv.1 = k' := by
        rw [hk]; exact fun hc => h hc.symm
      rw [hdrop, ih]
      simp [alookup, hne]
    · have hkeep : aerase (kv :: rest) k = kv :: aerase rest k := by
        simp [aerase, hk]
      rw [hkeep]
      by_cases hk' : kv.1 = k'
      · simp [alookup, hk']
      · simp [alookup, hk', ih]

theorem alookup_ainsert_ne {α : Type} (l : List (String × α)) (k k' : String)
    (v : α) (h : k' ≠ k) : alookup (ainsert l k v) k' = alookup l k' := by
  have hk : ¬k = k' := fun hc => h hc.symm
  have he : ainsert l k v = (k, v) :: aerase l k := rfl
  rw [he]
  simp [alookup, hk]
  exact alookup_aerase_ne l k k' h

theorem alookup_aerase_self {α : Type} (l : List (String × α)) (k : String) :
    alookup (aerase l k) k = none := by
  induction l with
  | nil => simp [aerase, alookup]
  | cons kv rest ih =>
    by_cases hk : kv.1 = k
    · simpa [aerase, hk] using ih
    · simpa [aerase, alookup, hk] using ih

theorem aerase_of_alookup_none {α : Type} (l : List (String × α)) (k : String)
    (h : alookup l k = none) : aerase l k = l := by
  induction l with
  | nil => rfl
  | cons kv rest ih =>
    by_cases hk : kv.1 = k
    · simp [alookup, hk] at h
    · simp [alookup, hk] at h
      simp [aerase, hk] at ih ⊢
      exact ih h

theorem mem_sinsert_self (s : List Nat) (x : Nat) : x ∈ sinsert s x := by
  by_cases h : x ∈ s <;> simp [sinsert, h]

theorem mem_sinsert_of_mem (s : List Nat) (x y : Nat) (h : y ∈ s) :
    y ∈ sinsert s x := by
  by_cases hx : x ∈ s <;> simp [sinsert, hx, h]

theorem sremove_fst_of_mem (s : List Nat) (x : Nat) (h : x ∈ s) :
    (sremove s x).1 = true := by
  simp [sremove, h]

theorem sremove_fst_of_not_mem (s : List Nat) (x : Nat) (h : x ∉ s) :
    (sremove s x).1 = false := by
  simp [sremove, h]

theorem not_mem_sremove_snd (s : List Nat) (x : Nat) :
    x ∉ (sremove s x).2 := by
  simp [sremove]

theorem sremove_snd_of_not_mem (s : List Nat) (x : Nat) (h : x ∉ s) :
    (sremove s x).2 = s := by
  simp [sremove, List.filter_eq_self]
  intro a ha hax
  exact h (hax ▸ ha)

/-- C7: after every `add_peer_to_store(identity, nickname)` mutation — on any
prior directory state, i.e. after any preceding sequence of insertions —
resolving the identity returns the nickname just set (the most recent one
for that identity) and resolving that nickname returns the identity: every
insert updates both directions of the mapping consistently. -/
theorem c7_directory_bidirectional (st : UtilsChatState)
    (peerid nickname : String) :
    (add_peer_to_store peerid nickname st).1.resolve_nickname peerid =
      nickname ∧
    (add_peer_to_store peerid nickname st).1.resolve_identity nickname =
      some peerid := by
  constructor
  · simp [add_peer_to_store, UtilsChatState.resolve_nickname,
      alookup_ainsert_self]
  · simp [add_peer_to_store, UtilsChatState.resolve_identity,
      alookup_ainsert_self]

/-- C3: for every inbound trade request, the handler records the incoming
TradeProposal exactly when the requested hash is in the local Content
Store, prints the confirmation prompt exactly in that case, always
responds with the boolean acknowledgement equal to the presence check,
and touches no other trade or dedup state. -/
theorem c3_trade_request_records_iff_present (peer : String)
    (req : TradeRequest) (st : ChatState) (fs : LocalFileStore) :
    (handle_trade_request peer req st fs).1.incoming_trades =
      (if fs.contains_file req.requested_file = true then
         ainsert st.incoming_trades peer req
       else st.incoming_trades) ∧
    Effect.respondTradeAck (fs.contains_file req.requested_file) ∈
      (handle_trade_request peer req st fs).2 ∧
    (Effect.console
        (ConsoleMsg.tradePrompt req.nickname
          (fs.get_metadata req.requested_file) req.offered_file) ∈
        (handle_trade_request peer req st fs).2 ↔
      fs.contains_file req.requested_file = true) ∧
    (handle_trade_request peer req st fs).1.outgoing_trades =
      st.outgoing_trades ∧
    (handle_trade_request peer req st fs).1.pending_keys = st.pending_keys := by
  by_cases h : fs.contains_file req.requested_file = true <;>
    simp [handle_trade_request, h]

/-- C4: an inbound file-transfer request carrying a payload from a sender
with no matching outgoing TradeProposal is answered with the empty
(`None`) payload and nothing else: the state is unchanged, no file save
effect and no file response is emitted. -/
theorem c4_file_transfer_without_outgoing_dropped (peer : String)
    (fr : FileResponse) (st : ChatState) (fs : LocalFileStore)
    (h : alookup st.outgoing_trades peer = none) :
    handle_file_transfer_request peer (some fr) st fs =
      (st, [Effect.respondFileTransfer none]) := by
  simp [handle_file_transfer_request, h]

/-- Witness for C4 at a concrete input. -/
theorem c4_file_transfer_without_outgoing_dropped_witness :
    alookup wstClean.outgoing_trades "p1" = none ∧
    handle_file_transfer_request "p1" (some wfr) wstClean wfs =
      (wstClean, [Effect.respondFileTransfer none]) :=
  ⟨by decide,
   c4_file_transfer_without_outgoing_dropped "p1" wfr wstClean wfs (by decide)⟩

/-- C10: an inbound file-transfer request carrying a payload whose sender
has a matching outgoing TradeProposal, but whose offered file bytes are
absent from the local Content Store, is still answered with a
`FileResponse` holding the empty byte vector (`get_file`'s absence is
defaulted) and the trade is reported successful. -/
theorem c10_missing_offered_file_sends_empty (peer : String)
    (fr : FileResponse) (st : ChatState) (fs : LocalFileStore)
    (t : TradeRequest)
    (ht : alookup st.outgoing_trades peer = some t)
    (hmiss : fs.get_file t.offered_file.hash = none) :
    handle_file_transfer_request peer (some fr) st fs =
      ({ st with outgoing_trades := aerase st.outgoing_trades peer },
       [Effect.saveFile fr.file fr.metadata.filename,
        Effect.respondFileTransfer
          (some { file := [], metadata := t.offered_file }),
        Effect.console ConsoleMsg.tradeSuccessful]) := by
  simp [handle_file_transfer_request, ht, hmiss]

/-- Witness for C10 at a concrete input. -/
theorem c10_missing_offered_file_sends_empty_witness :
    alookup wstOut.outgoing_trades "p1" = some wtradeOut ∧
    (⟨[], []⟩ : LocalFileStore).get_file wtradeOut.offered_file.hash = none ∧
    handle_file_transfer_request "p1" (some wfr) wstOut ⟨[], []⟩ =
      ({ wstOut with outgoing_trades := aerase wstOut.outgoing_trades "p1" },
       [Effect.saveFile wfr.file wfr.metadata.filename,
        Effect.respondFileTransfer
          (some { file := [], metadata := wtradeOut.offered_file }),
        Effect.console ConsoleMsg.tradeSuccessful]) :=
  ⟨by decide, by decide,
   c10_missing_offered_file_sends_empty "p1" wfr wstOut ⟨[], []⟩ wtradeOut
     (by decide) (by decide)⟩

/-- C5: a query id registered once with the dedup tracker is consumed with
result `true` exactly once: the first consume returns `true` and removes
the id, and a consume on any set not holding the id (as after the first
consume) returns `false` and still does not hold it; the `file::` and
`file_index::` kad handlers consult the tracker first and, when the id is
not tracked, discard the answer (no state change, no effects). -/
theorem c5_dedup_consume_once (s s2 : List Nat) (id : Nat)
    (st st2 : ChatState) (decoded : Option FileMetadata) (key rp : String)
    (dec2 : Option (List String)) (q : Nat)
    (hs2 : id ∉ s2)
    (hst : id ∉ st.pending_keys) (hst2 : id ∉ st2.pending_keys) :
    (sremove (sinsert s id) id).1 = true ∧
    id ∉ (sremove (sinsert s id) id).2 ∧
    (sremove s2 id).1 = false ∧
    id ∉ (sremove s2 id).2 ∧
    kad_file_branch id decoded st = (st, []) ∧
    kad_file_index_branch id key (some rp) dec2 st2 q = (st2, q, []) := by
  have hf : List.filter (fun y => !decide (y = id)) st.pending_keys =
      st.pending_keys := by
    refine List.filter_eq_self.mpr ?_
    intro a ha
    simp
    intro hc
    subst hc
    exact hst ha
  have hf2 : List.filter (fun y => !decide (y = id)) st2.pending_keys =
      st2.pending_keys := by
    refine List.filter_eq_self.mpr ?_
    intro a ha
    simp
    intro hc
    subst hc
    exact hst2 ha
  refine ⟨sremove_fst_of_mem _ _ (mem_sinsert_self s id),
    not_mem_sremove_snd _ _,
    sremove_fst_of_not_mem _ _ hs2,
    not_mem_sremove_snd _ _, ?_, ?_⟩
  · simp [kad_file_branch, sremove, hst, hf]
  · simp [kad_file_index_branch, sremove, hst2, hf2]

/-- Witness for C5 at a concrete input. -/
theorem c5_dedup_consume_once_witness :
    (5 : Nat) ∉ ([] : List Nat) ∧
    (5 : Nat) ∉ wstClean.pending_keys ∧
    ((sremove (sinsert [] 5) 5).1 = true ∧
     (5 : Nat) ∉ (sremove (sinsert [] 5) 5).2 ∧
     (sremove [] 5).1 = false ∧
     (5 : Nat) ∉ (sremove ([] : List Nat) 5).2 ∧
     kad_file_branch 5 none wstClean = (wstClean, []) ∧
     kad_file_index_branch 5 "file_index::p2" (some "p2") none wstClean 7 =
       (wstClean, 7, [])) :=
  ⟨by decide, by decide,
   c5_dedup_consume_once [] [] 5 wstClean wstClean none "file_index::p2" "p2"
     none 7 (by decide) (by decide) (by decide)⟩

/-- C8: handling a tracked `file_index::` lookup result whose value decodes
to two hashes prints the summary line reporting 2 files and issues exactly
two new `file::` metadata lookups, whose two fresh query ids are both
registered with the dedup tracker. -/
theorem c8_file_index_two_lookups (id q : Nat) (key h1 h2 rp : String)
    (st : ChatState) (htracked : id ∈ st.pending_keys) :
    (kad_file_index_branch id key (some rp) (some [h1, h2]) st q).2.2 =
      [Effect.console
         (ConsoleMsg.fileIndexSummary (st.nicknames.get rp) 2),
       Effect.kadGetRecord ("file::" ++ h1) q,
       Effect.kadGetRecord ("file::" ++ h2) (q + 1)] ∧
    q ∈ ChatState.pending_keys
        (kad_file_index_branch id key (some rp) (some [h1, h2]) st q).1 ∧
    q + 1 ∈ ChatState.pending_keys
        (kad_file_index_branch id key (some rp) (some [h1, h2]) st q).1 ∧
    (kad_file_index_branch id key (some rp) (some [h1, h2]) st q).2.1 =
      q + 2 := by
  refine ⟨?_, ?_, ?_, ?_⟩ <;>
    simp [kad_file_index_branch, sremove, htracked, issue_file_lookups]
  · exact mem_sinsert_of_mem _ _ _ (mem_sinsert_self _ _)
  · exact mem_sinsert_self _ _

/-- Witness for C8 at a concrete input. -/
theorem c8_file_index_two_lookups_witness :
    (5 : Nat) ∈ wstPend.pending_keys ∧
    ((kad_file_index_branch 5 "file_index::p2" (some "p2")
        (some ["h1", "h2"]) wstPend 7).2.2 =
      [Effect.console
         (ConsoleMsg.fileIndexSummary (wstPend.nicknames.get "p2") 2),
       Effect.kadGetRecord ("file::" ++ "h1") 7,
       Effect.kadGetRecord ("file::" ++ "h2") (7 + 1)] ∧
     (7 : Nat) ∈ ChatState.pending_keys
        ((kad_file_index_branch 5 "file_index::p2" (some "p2")
          (some ["h1", "h2"]) wstPend 7).1) ∧
     (7 : Nat) + 1 ∈ ChatState.pending_keys
        ((kad_file_index_branch 5 "file_index::p2" (some "p2")
          (some ["h1", "h2"]) wstPend 7).1) ∧
     (kad_file_index_branch 5 "file_index::p2" (some "p2")
        (some ["h1", "h2"]) wstPend 7).2.1 = 7 + 2) :=
  ⟨by decide,
   c8_file_index_two_lookups 5 7 "file_index::p2" "h1" "h2" "p2" wstPend
     (by decide)⟩

/-- C9: the dm command sends the direct-message request exactly when the
nickname resolves to a peer and an open trade (incoming or outgoing)
exists with that peer; an unresolved nickname or the absence of any open
trade rejects the command locally with no request sent and no state
change. -/
theorem c9_dm_requires_open_trade (nickname msg p : String)
    (stU stN stT : ChatState) (t : TradeRequest)
    (hU : stU.nicknames.get_key_from_value nickname = none)
    (hN : stN.nicknames.get_key_from_value nickname = some p)
    (hNin : alookup stN.incoming_trades p = none)
    (hNout : alookup stN.outgoing_trades p = none)
    (hT : stT.nicknames.get_key_from_value nickname = some p)
    (hTor : alookup stT.incoming_trades p = some t ∨
      alookup stT.outgoing_trades p = some t) :
    dm_cmd ["dm", nickname, msg] stU =
      (stU, [Effect.console ConsoleMsg.errNicknameNotFound]) ∧
    dm_cmd ["dm", nickname, msg] stN =
      (stN, [Effect.console ConsoleMsg.errDmRequiresOpenTrade]) ∧
    dm_cmd ["dm", nickname, msg] stT =
      (stT, [Effect.sendDirectMessage p
        { sender_nickname := stT.nickname, message := msg }]) := by
  refine ⟨?_, ?_, ?_⟩
  · simp [dm_cmd, hU]
  · simp [dm_cmd, hN, hNin, hNout]
  · rcases hTor with h | h <;> simp [dm_cmd, hT, h]

/-- Witness for C9 at a concrete input. -/
theorem c9_dm_requires_open_trade_witness :
    wstNoNick.nicknames.get_key_from_value "bob" = none ∧
    wstClean.nicknames.get_key_from_value "bob" = some "p1" ∧
    alookup wstClean.incoming_trades "p1" = none ∧
    alookup wstClean.outgoing_trades "p1" = none ∧
    wstIn.nicknames.get_key_from_value "bob" = some "p1" ∧
    (dm_cmd ["dm", "bob", "hey"] wstNoNick =
       (wstNoNick, [Effect.console ConsoleMsg.errNicknameNotFound]) ∧
     dm_cmd ["dm", "bob", "hey"] wstClean =
       (wstClean, [Effect.console ConsoleMsg.errDmRequiresOpenTrade]) ∧
     dm_cmd ["dm", "bob", "hey"] wstIn =
       (wstIn, [Effect.sendDirectMessage "p1"
         { sender_nickname := wstIn.nickname, message := "hey" }])) :=
  ⟨by decide, by decide, by decide, by decide, by decide,
   c9_dm_requires_open_trade "bob" "hey" "p1" wstNoNick wstClean wstIn
     wtradeIn (by decide) (by decide) (by decide) (by decide) (by decide)
     (Or.inl (by decide))⟩

/-- C1 counterexample: at a concrete state holding an incoming trade from
peer p1, a successful `/trade_accept` sends the assembled file-transfer
request but the incoming slot for that counterpart is NOT empty
immediately after the accept — it still holds the proposal, refuting the
claim that a successful accept removes the incoming slot. -/
theorem c1_accept_keeps_slot_counterexample :
    trade_accept_cmd ["trade_accept", "bob"] wstIn wfs =
      (wstIn, [Effect.sendFileTransfer "p1"
        (some { file := [9, 8], metadata := wmetaB })]) ∧
    alookup wstIn.incoming_trades "p1" = some wtradeIn := by
  decide

/-- C1 (amended): `/trade_accept` with no incoming TradeProposal for the
resolved counterpart fails (NoIncomingTrade report) and mutates no state;
with an incoming proposal present it sends the file-transfer request
assembled from the proposal (the requested file's bytes and metadata)
while leaving the incoming slot in place; the incoming slot is removed
when the counterpart's file-transfer response carrying its file arrives. -/
theorem c1_accept_behaviour (nickname p : String) (st1 st2 : ChatState)
    (fs : LocalFileStore) (t : TradeRequest) (bytes : List Nat)
    (m : FileMetadata) (fr : FileResponse)
    (hres1 : st1.nicknames.get_key_from_value nickname = some p)
    (hres2 : st2.nicknames.get_key_from_value nickname = some p)
    (hnone : alookup st1.incoming_trades p = none)
    (hsome : alookup st2.incoming_trades p = some t)
    (hbytes : fs.get_file t.requested_file = some bytes)
    (hmeta : fs.get_metadata t.requested_file = some m) :
    trade_accept_cmd ["trade_accept", nickname] st1 fs =
      (st1, [Effect.console ConsoleMsg.errNoTradeFromUser]) ∧
    trade_accept_cmd ["trade_accept", nickname] st2 fs =
      (st2,
       [Effect.sendFileTransfer p (some { file := bytes, metadata := m })]) ∧
    alookup (ChatState.incoming_trades
      (trade_accept_cmd ["trade_accept", nickname] st2 fs).1) p = some t ∧
    (handle_file_transfer_rsp p (some fr) st2).1.incoming_trades =
      aerase st2.incoming_trades p ∧
    alookup (ChatState.incoming_trades
      (handle_file_transfer_rsp p (some fr) st2).1) p = none := by
  refine ⟨?_, ?_, ?_, ?_, ?_⟩
  · simp [trade_accept_cmd, hres1, hnone]
  · simp [trade_accept_cmd, hres2, hsome, hbytes, hmeta]
  · simp [trade_accept_cmd, hres2, hsome, hbytes, hmeta]
  · simp [handle_file_transfer_rsp]
  · simp [handle_file_transfer_rsp, alookup_aerase_self]

/-- Witness for the amended C1 at a concrete input. -/
theorem c1_accept_behaviour_witness :
    wstClean.nicknames.get_key_from_value "bob" = some "p1" ∧
    wstIn.nicknames.get_key_from_value "bob" = some "p1" ∧
    alookup wstClean.incoming_trades "p1" = none ∧
    alookup wstIn.incoming_trades "p1" = some wtradeIn ∧
    wfs.get_file wtradeIn.requested_file = some [9, 8] ∧
    wfs.get_metadata wtradeIn.requested_file = some wmetaB ∧
    (trade_accept_cmd ["trade_accept", "bob"] wstClean wfs =
       (wstClean, [Effect.console ConsoleMsg.errNoTradeFromUser]) ∧
     trade_accept_cmd ["trade_accept", "bob"] wstIn wfs =
       (wstIn, [Effect.sendFileTransfer "p1"
         (some { file := [9, 8], metadata := wmetaB })]) ∧
     alookup (ChatState.incoming_trades
       (trade_accept_cmd ["trade_accept", "bob"] wstIn wfs).1) "p1" =
       some wtradeIn ∧
     (handle_file_transfer_rsp "p1" (some wfr) wstIn).1.incoming_trades =
       aerase wstIn.incoming_trades "p1" ∧
     alookup (ChatState.incoming_trades
       (handle_file_transfer_rsp "p1" (some wfr) wstIn).1) "p1" = none) :=
  ⟨by decide, by decide, by decide, by decide, by decide, by decide,
   c1_accept_behaviour "bob" "p1" wstClean wstIn wfs wtradeIn [9, 8] wmetaB
     wfr (by decide) (by decide) (by decide) (by decide) (by decide)
     (by decide)⟩

/-- C2: issuing a trade proposal while an incoming or an outgoing
TradeProposal for the counterpart exists is rejected (AlreadyNegotiating
report) with no new proposal stored and no trade request sent; from a
clean state the proposal succeeds and is stored, an immediate second
proposal to the same counterpart is rejected, and after the outgoing slot
is removed (`complete_or_abort_outgoing`, here the false-acknowledgement
handler) a subsequent proposal to the same counterpart succeeds again. -/
theorem c2_already_negotiating (nickname p offered requested : String)
    (ofile : FileMetadata) (stI stO st : ChatState) (fs : LocalFileStore)
    (tI tO : TradeRequest)
    (hresI : stI.nicknames.get_key_from_value nickname = some p)
    (hI : alookup stI.incoming_trades p = some tI)
    (hresO : stO.nicknames.get_key_from_value nickname = some p)
    (hOin : alookup stO.incoming_trades p = none)
    (hOout : alookup stO.outgoing_trades p = some tO)
    (hres : st.nicknames.get_key_from_value nickname = some p)
    (hin : alookup st.incoming_trades p = none)
    (hout : alookup st.outgoing_trades p = none)
    (hmeta : fs.get_metadata offered = some ofile) :
    trade_cmd ["trade", nickname, offered, requested] stI fs =
      (stI,
       [Effect.console (ConsoleMsg.errAlreadyNegotiatingIncoming nickname)]) ∧
    trade_cmd ["trade", nickname, offered, requested] stO fs =
      (stO,
       [Effect.console (ConsoleMsg.errAlreadyNegotiatingOutgoing nickname)]) ∧
    trade_cmd ["trade", nickname, offered, requested] st fs =
      ({ st with outgoing_trades := ainsert st.outgoing_trades p (⟨ofile, requested, st.nickname⟩ : TradeRequest) },
       [Effect.sendTradeRequest p
          (⟨ofile, requested, st.nickname⟩ : TradeRequest),
        Effect.console (ConsoleMsg.tradeRequestSent nickname)]) ∧
    trade_cmd ["trade", nickname, offered, requested]
        (trade_cmd ["trade", nickname, offered, requested] st fs).1 fs =
      ((trade_cmd ["trade", nickname, offered, requested] st fs).1,
       [Effect.console (ConsoleMsg.errAlreadyNegotiatingOutgoing nickname)]) ∧
    alookup (ChatState.outgoing_trades
      (trade_cmd ["trade", nickname, offered, requested]
        (handle_trade_ack p false
          (trade_cmd ["trade", nickname, offered, requested] st fs).1).1
        fs).1) p =
      some (⟨ofile, requested, st.nickname⟩ : TradeRequest) ∧
    Effect.sendTradeRequest p
        (⟨ofile, requested, st.nickname⟩ : TradeRequest) ∈
      (trade_cmd ["trade", nickname, offered, requested]
        (handle_trade_ack p false
          (trade_cmd ["trade", nickname, offered, requested] st fs).1).1
        fs).2 := by
  have h3 : trade_cmd ["trade", nickname, offered, requested] st fs =
      ({ st with outgoing_trades := ainsert st.outgoing_trades p (⟨ofile, requested, st.nickname⟩ : TradeRequest) },
       [Effect.sendTradeRequest p
          (⟨ofile, requested, st.nickname⟩ : TradeRequest),
        Effect.console (ConsoleMsg.tradeRequestSent nickname)]) := by
    simp [trade_cmd, hres, hin, hout, hmeta]
  refine ⟨?_, ?_, h3, ?_, ?_, ?_⟩
  · simp [trade_cmd, hresI, hI]
  · simp [trade_cmd, hresO, hOin, hOout]
  · rw [h3]
    simp [trade_cmd, hres, hin, alookup_ainsert_self]
  · rw [h3]
    simp [handle_trade_ack, trade_cmd, hres, hin, hmeta,
      alookup_aerase_self, alookup_ainsert_self]
  · rw [h3]
    simp [handle_trade_ack, trade_cmd, hres, hin, hmeta,
      alookup_aerase_self, alookup_ainsert_self]

/-- Witness for C2 at a concrete input. -/
theorem c2_already_negotiating_witness :
    wstIn.nicknames.get_key_from_value "bob" = some "p1" ∧
    alookup wstIn.incoming_trades "p1" = some wtradeIn ∧
    wstOut.nicknames.get_key_from_value "bob" = some "p1" ∧
    alookup wstOut.incoming_trades "p1" = none ∧
    alookup wstOut.outgoing_trades "p1" = some wtradeOut ∧
    wstClean.nicknames.get_key_from_value "bob" = some "p1" ∧
    alookup wstClean.incoming_trades "p1" = none ∧
    alookup wstClean.outgoing_trades "p1" = none ∧
    wfs.get_metadata "33334444" = some wmetaB ∧
    (trade_cmd ["trade", "bob", "33334444", "11112222"] wstIn wfs =
      (wstIn,
       [Effect.console (ConsoleMsg.errAlreadyNegotiatingIncoming "bob")]) ∧
    trade_cmd ["trade", "bob", "33334444", "11112222"] wstOut wfs =
      (wstOut,
       [Effect.console (ConsoleMsg.errAlreadyNegotiatingOutgoing "bob")]) ∧
    trade_cmd ["trade", "bob", "33334444", "11112222"] wstClean wfs =
      ({ wstClean with outgoing_trades := ainsert wstClean.outgoing_trades "p1" (⟨wmetaB, "11112222", wstClean.nickname⟩ : TradeRequest) },
       [Effect.sendTradeRequest "p1"
          (⟨wmetaB, "11112222", wstClean.nickname⟩ : TradeRequest),
        Effect.console (ConsoleMsg.tradeRequestSent "bob")]) ∧
    trade_cmd ["trade", "bob", "33334444", "11112222"]
        (trade_cmd ["trade", "bob", "33334444", "11112222"] wstClean wfs).1
        wfs =
      ((trade_cmd ["trade", "bob", "33334444", "11112222"] wstClean wfs).1,
       [Effect.console (ConsoleMsg.errAlreadyNegotiatingOutgoing "bob")]) ∧
    alookup (ChatState.outgoing_trades
      (trade_cmd ["trade", "bob", "33334444", "11112222"]
        (handle_trade_ack "p1" false
          (trade_cmd ["trade", "bob", "33334444", "11112222"] wstClean
            wfs).1).1
        wfs).1) "p1" =
      some (⟨wmetaB, "11112222", wstClean.nickname⟩ : TradeRequest) ∧
    Effect.sendTradeRequest "p1"
        (⟨wmetaB, "11112222", wstClean.nickname⟩ : TradeRequest) ∈
      (trade_cmd ["trade", "bob", "33334444", "11112222"]
        (handle_trade_ack "p1" false
          (trade_cmd ["trade", "bob", "33334444", "11112222"] wstClean
            wfs).1).1
        wfs).2) :=
  ⟨by decide, by decide, by decide, by decide, by decide, by decide,
   by decide, by decide, by decide,
   c2_already_negotiating "bob" "p1" "33334444" "11112222" wmetaB wstIn
     wstOut wstClean wfs wtradeIn wtradeOut (by decide) (by decide)
     (by decide) (by decide) (by decide) (by decide) (by decide) (by decide)
     (by decide)⟩

/-- C6 counterexample: with a stand-in for the external SHA-256 digest at
one concrete input (32 zero bytes), the content key produced by
`compute_hash` and used by `add_file` is the 8-character truncation of the
hex digest, not the full 64-character digest: looking the store up under
the full hex digest fails while the truncated string succeeds, refuting
the claim that the full untruncated digest is the canonical key. -/
theorem c6_full_digest_not_key_counterexample :
    LocalFileStore.add_file ⟨[], []⟩ (fun _ => List.replicate 32 0) [1, 2, 3]
        "a.txt" "p1" none =
      ((⟨[], []⟩ : LocalFileStore).add_file (fun _ => List.replicate 32 0)
        [1, 2, 3] "a.txt" "p1" none) ∧
    ((⟨[], []⟩ : LocalFileStore).add_file (fun _ => List.replicate 32 0)
        [1, 2, 3] "a.txt" "p1" none).1 = "00000000" ∧
    (hexEncode (List.replicate 32 0)).length = 64 ∧
    ((⟨[], []⟩ : LocalFileStore).add_file (fun _ => List.replicate 32 0)
        [1, 2, 3] "a.txt" "p1" none).1 ≠ hexEncode (List.replicate 32 0) ∧
    alookup (LocalFileStore.files
      ((⟨[], []⟩ : LocalFileStore).add_file (fun _ => List.replicate 32 0)
        [1, 2, 3] "a.txt" "p1" none).2) (hexEncode (List.replicate 32 0)) =
      none ∧
    alookup (LocalFileStore.files
      ((⟨[], []⟩ : LocalFileStore).add_file (fun _ => List.replicate 32 0)
        [1, 2, 3] "a.txt" "p1" none).2) "00000000" = some [1, 2, 3] := by
  refine ⟨rfl, by decide, by decide, by decide, by decide, by decide⟩

/-- C6 (amended): the content key returned by `add_file` — used as the
Content Store's internal lookup key for both bytes and metadata, recorded
in the published metadata, and used in the DHT `file::` record key by the
upload path — is the SHA-256 hex digest truncated to its first 8
characters, serving as the canonical key (not only for display). -/
theorem c6_truncated_hash_is_canonical_key (sha : List Nat → List Nat)
    (file_bytes : List Nat) (filename peer_id : String)
    (description : Option String) (fs : LocalFileStore) :
    (fs.add_file sha file_bytes filename peer_id description).1 =
      (hexEncode (sha file_bytes)).take 8 ∧
    alookup (LocalFileStore.files
        (fs.add_file sha file_bytes filename peer_id description).2)
        ((hexEncode (sha file_bytes)).take 8) = some file_bytes ∧
    alookup (LocalFileStore.metadata
        (fs.add_file sha file_bytes filename peer_id description).2)
        ((hexEncode (sha file_bytes)).take 8) =
      some { filename := filename, owner := peer_id
             description := description
             hash := (hexEncode (sha file_bytes)).take 8
             size := file_bytes.length } ∧
    Effect.kadPutRecord ("file::" ++ (hexEncode (sha file_bytes)).take 8)
        (KadValue.fileMeta
          { filename := filename, owner := peer_id
            description := description
            hash := (hexEncode (sha file_bytes)).take 8
            size := file_bytes.length }) ∈
      (upload_share file_bytes filename peer_id description fs sha).2 := by
  refine ⟨?_, ?_, ?_, ?_⟩
  · simp [LocalFileStore.add_file, compute_hash]
  · simp [LocalFileStore.add_file, compute_hash, alookup_ainsert_self]
  · simp [LocalFileStore.add_file, compute_hash, alookup_ainsert_self]
  · simp [upload_share, LocalFileStore.add_file, LocalFileStore.get_metadata,
      compute_hash, alookup_ainsert_self]
